import Mathlib

/-!
Verification development for the r.e.-image2vids repository.

This file gives a shallow embedding of the pure, decidable core of the
application and proves (or refutes) the frozen claims about it:

* `src/services/geminiService.ts` — `searchPropertyVideos`'s post-processing
  pipeline (link cleanup, URL parsing, filtering, dedup, categorization,
  availability filtering) and its error wrapper, plus
  `generatePromotionalVideo`'s outcome logic;
* `src/App.tsx` — `handleSearch` validation and `handleDeleteVideo`.

External effects (the generative-model call, the network probe of the YouTube
oembed endpoint, the environment holding the API key) are passed in as explicit
data: a `ModelResponse` value stands for whatever the external model answered,
a `probe : String → ProbeResult` oracle stands for the network's reply to each
availability probe, and an `Option String` stands for the configured API key.
-/

deriving instance DecidableEq for Except

/- ## String helpers modelling the JavaScript string operations used -/

/-- Model of JS `needle` being a prefix of the character list `cs`
(used for `String.prototype.startsWith`-like checks on char lists). -/
def leadsWith : List Char → List Char → Bool
  | [], _ => true
  | _ :: _, [] => false
  | a :: as, b :: bs => a = b && leadsWith as bs

/-- Helper for substring search: does `needle` occur in the list (at any
position)?  Models JS `String.prototype.includes`. -/
def containsSub : List Char → List Char → Bool
  | needle, [] => leadsWith needle []
  | needle, c :: rest => leadsWith needle (c :: rest) || containsSub needle rest

/-- Model of JS `hay.includes(needle)`. -/
def containsStr (hay needle : String) : Bool :=
  containsSub needle.data hay.data

/-- Model of JS `s.startsWith(pre)` (kernel-reducible, unlike the core
`String.startsWith`). -/
def startsWithStr (s pre : String) : Bool :=
  leadsWith pre.data s.data

/-- Model of JS `s.trim()` (whitespace stripped from both ends). -/
def jsTrim (s : String) : String :=
  ⟨((s.data.dropWhile Char.isWhitespace).reverse.dropWhile Char.isWhitespace).reverse⟩

/-- Model of JS `s.toLowerCase()` on the ASCII strings handled here
(kernel-reducible, unlike the core `String.toLower`). -/
def toLowerStr (s : String) : String :=
  ⟨s.data.map Char.toLower⟩

/-- The trailing characters stripped by `replace(/[.,;:)]+$/, "")` in
`processLink`. -/
def isTrailingPunct (c : Char) : Bool :=
  c = '.' || c = ',' || c = ';' || c = ':' || c = ')'

/-- Model of `uri.trim().replace(/[.,;:)]+$/, "")` in `processLink`. -/
def cleanUriOf (uri : String) : String :=
  ⟨((jsTrim uri).data.reverse.dropWhile isTrailingPunct).reverse⟩

/- ## Model of the WHATWG `URL` constructor (the subset exercised here)

`new URL(s)` in `processLink` is modelled for strings of the shape
`scheme://host[/path][?query][#fragment]` (a valid scheme, a `://`, and a
non-empty host).  Any other string is treated as a parse failure (`none`),
matching the constructor throwing and the surrounding `catch` skipping the
link.  The `hostname` is returned raw (the code lowercases it itself) and the
`pathname` of a URL with an empty path is `/` for the special http/https
schemes and empty otherwise, as in the WHATWG parser. -/

structure URLObj where
  scheme : String
  hostname : String
  pathname : String
deriving DecidableEq, Repr

/-- Characters allowed after the first letter of a URL scheme. -/
def isSchemeTailChar (c : Char) : Bool :=
  c.isAlphanum || c = '+' || c = '-' || c = '.'

def isHostEndChar (c : Char) : Bool :=
  c = '/' || c = '?' || c = '#'

def parseURL (s : String) : Option URLObj :=
  match s.data with
  | [] => none
  | c :: cs =>
    if c.isAlpha then
      let schemeChars := (c :: cs).takeWhile isSchemeTailChar
      let rest := (c :: cs).dropWhile isSchemeTailChar
      match rest with
      | ':' :: '/' :: '/' :: rest2 =>
        let hostChars := rest2.takeWhile (fun d => !(isHostEndChar d))
        let afterHost := rest2.dropWhile (fun d => !(isHostEndChar d))
        if hostChars.isEmpty then none
        else
          let scheme := toLowerStr ⟨schemeChars⟩
          let pathChars := afterHost.takeWhile (fun d => d ≠ '?' && d ≠ '#')
          let pathname :=
            if pathChars.isEmpty then
              if scheme = "http" || scheme = "https" then "/" else ""
            else (⟨pathChars⟩ : String)
          some { scheme := scheme, hostname := ⟨hostChars⟩, pathname := pathname }
      | _ => none
    else none

/- ## Model of the URL-mining regex `/(https?:\/\/[^\s<>"']+)/g`

`summary.match(urlRegex)` returns the non-overlapping, left-to-right, greedy
matches of the regex.  A match starts with `http://` or `https://` and extends
over the maximal run of characters outside the class `[\s<>"']`; at least one
such character must follow the `//`.  `scanUrls` walks the characters with a
fuel argument bounded by the text length (each step consumes at least one
character). -/

/-- A character matched by `[^\s<>"']` (34 = double quote, 39 = apostrophe). -/
def isUrlChar (c : Char) : Bool :=
  !(c.isWhitespace || c = '<' || c = '>' || c.toNat = 34 || c.toNat = 39)

def scanUrls : Nat → List Char → List String
  | 0, _ => []
  | _, [] => []
  | fuel + 1, c :: cs =>
    let run := (c :: cs).takeWhile isUrlChar
    let hit := (leadsWith "http://".data (c :: cs) && run.length > 7)
            || (leadsWith "https://".data (c :: cs) && run.length > 8)
    if hit then
      (⟨run⟩ : String) :: scanUrls fuel ((c :: cs).dropWhile isUrlChar)
    else
      scanUrls fuel cs

/-- Model of `summary.match(/(https?:\/\/[^\s<>"']+)/g) || []`. -/
def extractUrls (s : String) : List String :=
  scanUrls s.data.length s.data

/- ## Data model (src/types.ts) -/

structure PropertyDetails where
  street : String
  city : String
  state : String
  zip : String
  mlsNumber : String
deriving DecidableEq, Repr

structure VideoSearchResult where
  title : String
  uri : String
  source : String
deriving DecidableEq, Repr

structure SearchResponse where
  summary : String
  videos : List VideoSearchResult
  found : Bool
deriving DecidableEq, Repr

/- ## Model of the external model response

`ModelResponse.text` is `response.text` (`none` for absent), and `chunks` is
`response.candidates?.[0]?.groundingMetadata?.groundingChunks || []` flattened
to the fields the code reads: each chunk optionally carries a `web` record with
optional `uri` and `title` strings. -/

structure WebInfo where
  uri : Option String
  title : Option String
deriving DecidableEq, Repr

structure GroundingChunk where
  web : Option WebInfo
deriving DecidableEq, Repr

structure ModelResponse where
  text : Option String
  chunks : List GroundingChunk
deriving DecidableEq, Repr

/-- `response.text || "No summary provided."` — the JS `||` falls through on
`undefined` and on the empty string. -/
def summaryOf (resp : ModelResponse) : String :=
  match resp.text with
  | none => "No summary provided."
  | some t => if t = "" then "No summary provided." else t

/- ## processLink (geminiService.ts lines 108–159) -/

/-- Rule 1 of `processLink`: a channel-root / user-listing page on YouTube
(the nested `if`s of lines 122–126 as one conjunction).  Also the spec-side
notion of "channel-root page on a known video platform" used by the claims:
for a stored entry, `source` is the lowercased hostname and `uri` the cleaned
URI, exactly the strings the code tests. -/
def isChannelPage (source uri : String) : Bool :=
  (containsStr source "youtube.com" || containsStr source "youtu.be") &&
  (containsStr uri "/channel/" || containsStr uri "/user/" ||
   containsStr uri "/c/")

/-- The sequential early-`return` filters of `processLink` (rules 1–5),
expressed as one disjunction; `hostname` is already lowercased and
`lowerTitle` is the lowercased title, as in the code. -/
def rejectLink (cleanUri hostname pathname lowerTitle : String) : Bool :=
  isChannelPage hostname cleanUri
  || containsStr cleanUri "google.com/maps"
  || containsStr cleanUri "google.com/search"
  || pathname = "/"
  || pathname.length < 2
  || (containsStr hostname "zillow.com" &&
        (containsStr cleanUri "/homes/" || containsStr cleanUri "_rb") &&
        !(containsStr cleanUri "/homedetails/"))
  || (containsStr hostname "realtor.com" && containsStr cleanUri "-search")
  || (containsStr hostname "redfin.com" &&
        (containsStr cleanUri "/city/" || containsStr cleanUri "/zipcode/"))
  || (containsStr hostname "trulia.com" &&
        (containsStr cleanUri "/for_sale/" || containsStr cleanUri "/sold/") &&
        !(containsStr cleanUri "/p/"))
  || containsStr lowerTitle "how to verify"
  || containsStr lowerTitle "verify youtube channel"

/-- `processLink` acting on the insertion-ordered `uniqueLinks` map (modelled
as a list of entries in insertion order; the map key is the cleaned URI, which
is exactly the stored `uri` field). -/
def processLink (uniqueLinks : List VideoSearchResult) (uri : String)
    (title : String) : List VideoSearchResult :=
  if startsWithStr (cleanUriOf uri) "http" then
    match parseURL (cleanUriOf uri) with
    | none => uniqueLinks
    | some urlObj =>
      if rejectLink (cleanUriOf uri) (toLowerStr urlObj.hostname)
          urlObj.pathname (toLowerStr title) then
        uniqueLinks
      else if uniqueLinks.any (fun l => l.uri = cleanUriOf uri) then
        uniqueLinks
      else
        uniqueLinks ++
          [{ title := title, uri := cleanUriOf uri,
             source := toLowerStr urlObj.hostname }]
  else uniqueLinks

/-- `chunk.web.title || "Source Link"`. -/
def chunkTitle (w : WebInfo) : String :=
  match w.title with
  | none => "Source Link"
  | some t => if t = "" then "Source Link" else t

/-- One iteration of the `chunks.forEach` loop: the guard `if (chunk.web?.uri)`
requires a present, non-empty `uri`. -/
def processChunk (acc : List VideoSearchResult) (ch : GroundingChunk) :
    List VideoSearchResult :=
  match ch.web with
  | none => acc
  | some w =>
    match w.uri with
    | none => acc
    | some u => if u = "" then acc else processLink acc u (chunkTitle w)

/-- The `chunks.forEach` loop. -/
def processChunks (acc : List VideoSearchResult) :
    List GroundingChunk → List VideoSearchResult
  | [] => acc
  | ch :: rest => processChunks (processChunk acc ch) rest

/-- The `textMatches.forEach` loop. -/
def processTextMatches (acc : List VideoSearchResult) :
    List String → List VideoSearchResult
  | [] => acc
  | m :: rest => processTextMatches (processLink acc m "Mentioned Link") rest

/-- `Array.from(uniqueLinks.values())` after both extraction passes
(grounding chunks first, then URLs mined from the summary text). -/
def allLinksOf (resp : ModelResponse) : List VideoSearchResult :=
  processTextMatches (processChunks [] resp.chunks) (extractUrls (summaryOf resp))

/- ## Categorization (geminiService.ts lines 178–211) -/

def isVideoPlatform (source uri : String) : Bool :=
  containsStr (toLowerStr source) "youtube" ||
  containsStr (toLowerStr source) "youtu.be" ||
  containsStr (toLowerStr source) "vimeo" ||
  containsStr (toLowerStr source) "tiktok" ||
  containsStr (toLowerStr source) "facebook" ||
  containsStr (toLowerStr source) "instagram" ||
  containsStr (toLowerStr source) "matterport" ||
  containsStr (toLowerStr uri) "tour" ||
  containsStr (toLowerStr uri) "video"

/-- The `for (const link of allLinks)` loop, carrying the mutable
`listingPage` and `videoLinks` as an accumulator. -/
def categorize (listing : Option VideoSearchResult)
    (vids : List VideoSearchResult) :
    List VideoSearchResult → Option VideoSearchResult × List VideoSearchResult
  | [] => (listing, vids)
  | link :: rest =>
    if isVideoPlatform link.source link.uri then
      categorize listing (vids ++ [link]) rest
    else
      match listing with
      | none =>
        categorize (some { link with title := "Official Listing Page" }) vids rest
      | some _ => categorize listing vids rest

/-- `finalLinks` just before the availability check: the listing page (if one
was selected) followed by the video links. -/
def finalLinksPre (resp : ModelResponse) : List VideoSearchResult :=
  let cat := categorize none [] (allLinksOf resp)
  (match cat.1 with
   | some l => [l]
   | none => []) ++ cat.2

/- ## Availability check (geminiService.ts lines 213–254) -/

/-- Outcome of `res.json()`: it may throw (malformed body) or yield an object
whose `title` field may be absent. -/
inductive JsonBody where
  | malformed : JsonBody
  | parsed (title : Option String) : JsonBody
deriving DecidableEq, Repr

/-- Outcome of the `fetch` of the oembed probe: the whole request may throw
(network error, or the 3-second abort), or return a response with a status
code and a body. -/
inductive ProbeResult where
  | throws : ProbeResult
  | response (status : Nat) (body : JsonBody) : ProbeResult
deriving DecidableEq, Repr

/-- `video.source.includes("youtube.com") || video.source.includes("youtu.be")`. -/
def isYouTubeSource (source : String) : Bool :=
  containsStr source "youtube.com" || containsStr source "youtu.be"

/-- `res.ok`: status in the range 200–299. -/
def statusOk (status : Nat) : Bool :=
  200 ≤ status && status ≤ 299

/-- The body of `checkAvailability`'s `try` block after the `fetch`, as a
function of the probe's outcome: the 404/401/403 check, the `res.ok` check,
and the "video unavailable" JSON-title check (a malformed body is swallowed
by the inner empty `catch` and the link kept). -/
def probeOutcomeOk : ProbeResult → Bool
  | .throws => false
  | .response status body =>
    if status = 404 || status = 401 || status = 403 then false
    else if !(statusOk status) then false
    else
      match body with
      | .malformed => true
      | .parsed title => !(title = some "video unavailable")

/-- `checkAvailability`, with the network abstracted as a `probe` oracle from
the probed URI to the probe's outcome.  Non-YouTube sources are not probed. -/
def checkAvailability (probe : String → ProbeResult)
    (video : VideoSearchResult) : Bool :=
  if isYouTubeSource video.source then probeOutcomeOk (probe video.uri)
  else true

/- ## The whole post-processing pipeline and the error wrapper -/

/-- Everything `searchPropertyVideos` does to a successfully returned model
response.  The code probes all links concurrently and then filters by the
per-index results; since each result depends only on the link itself, this is
`List.filter`. -/
def searchPipeline (resp : ModelResponse) (probe : String → ProbeResult) :
    SearchResponse :=
  let finalLinks := (finalLinksPre resp).filter (checkAvailability probe)
  { summary := summaryOf resp
    videos := finalLinks
    found := decide (finalLinks.length > 0) }

inductive SearchFailure where
  | missingKey (msg : String) : SearchFailure
  | searchFailed (msg : String) : SearchFailure
deriving DecidableEq, Repr

/-- `searchPropertyVideos` (geminiService.ts lines 23–266): `apiKey` is the
resolved credential, `callResult` the outcome of the single
`ai.models.generateContent` call (the only statement in the `try` block that
can throw), `probe` the availability-probe oracle. -/
def searchPropertyVideos (apiKey : Option String)
    (callResult : Except Unit ModelResponse) (probe : String → ProbeResult) :
    Except SearchFailure SearchResponse :=
  match apiKey with
  | none =>
    .error (.missingKey "API Key not found. Please ensure API_KEY (or VITE_API_KEY) is set in your Render.com Environment Variables.")
  | some _ =>
    match callResult with
    | .error _ =>
      .error (.searchFailed "Failed to search for videos. Please check your API Key and try again.")
    | .ok resp => .ok (searchPipeline resp probe)

/- ## generatePromotionalVideo (geminiService.ts lines 268–319)

`opResult` is the outcome of the generation request plus polling loop:
`.error ()` if any call in the `try` block threw, `.ok none` if the operation
completed but `operation.response?.generatedVideos?.[0]?.video?.uri` was
absent (the inner descriptive `throw` is caught by the same `catch` and
re-surfaced as the generic message), `.ok (some uri)` on success. -/
def generatePromotionalVideo (apiKey : Option String)
    (opResult : Except Unit (Option String)) : Except String String :=
  match apiKey with
  | none => .error "API Key not found"
  | some key =>
    match opResult with
    | .error _ => .error "Failed to generate promotional video."
    | .ok none => .error "Failed to generate promotional video."
    | .ok (some videoUri) => .ok (videoUri ++ "&key=" ++ key)

/- ## App.tsx: handleSearch validation and handleDeleteVideo -/

structure AddressForm where
  street : String
  city : String
  state : String
  zip : String
deriving DecidableEq, Repr

/-- The `missingFields` array built by `handleSearch` (App.tsx lines 96–101),
in the order the code pushes the names. -/
def missingFieldsOf (address : AddressForm) (mlsNumber : String) : List String :=
  (if jsTrim address.street = "" then ["Street Address"] else []) ++
  (if jsTrim address.city = "" then ["City"] else []) ++
  (if jsTrim address.state = "" then ["State"] else []) ++
  (if jsTrim address.zip = "" then ["Zip Code"] else []) ++
  (if jsTrim mlsNumber = "" then ["MLS Number"] else [])

/-- Model of JS `Array.prototype.join(sep)`. -/
def joinWith (sep : String) : List String → String
  | [] => ""
  | [x] => x
  | x :: y :: rest => x ++ sep ++ joinWith sep (y :: rest)

/-- What `handleSearch` does after validation: either sets the error message
and returns without searching, or invokes `searchPropertyVideos` with the
assembled details. -/
inductive SearchAction where
  | rejected (errorMsg : String) : SearchAction
  | invoked (details : PropertyDetails) : SearchAction
deriving DecidableEq, Repr

def handleSearch (address : AddressForm) (mlsNumber : String) : SearchAction :=
  let missing := missingFieldsOf address mlsNumber
  if missing.length > 0 then
    .rejected ("Please fill in the following required field(s): " ++
      joinWith ", " missing)
  else
    .invoked { street := address.street, city := address.city,
               state := address.state, zip := address.zip,
               mlsNumber := mlsNumber }

/-- `[...videos].splice(index, 1)`: removing the element at `index` (a no-op
when `index` is out of range, as with `splice`). -/
def spliceRemoveAt (l : List VideoSearchResult) (i : Nat) :
    List VideoSearchResult :=
  l.take i ++ l.drop (i + 1)

/-- `handleDeleteVideo` (App.tsx lines 438–443). -/
def handleDeleteVideo (results : Option SearchResponse) (index : Nat) :
    Option SearchResponse :=
  match results with
  | none => none
  | some r => some { r with videos := spliceRemoveAt r.videos index }

/- ## Spec-side definitions used to state the claims -/

/-- Declarative description of the selected listing entry: the first
non-video candidate, retitled. -/
def listingEntry (links : List VideoSearchResult) : Option VideoSearchResult :=
  (links.find? fun l => !(isVideoPlatform l.source l.uri)).map
    fun l => { l with title := "Official Listing Page" }

/- ## Concrete fixtures used to instantiate and refute the claims -/

/-- A probe that answers every request with HTTP 200 and a normal JSON body. -/
def probeOk : String → ProbeResult := fun _ => .response 200 (.parsed (some "A tour"))

/-- A probe that answers every request with HTTP 200 and a JSON body whose
title is exactly "video unavailable". -/
def probeUnavailable : String → ProbeResult :=
  fun _ => .response 200 (.parsed (some "video unavailable"))

/-- A model response citing a single YouTube watch link. -/
def respWatch : ModelResponse :=
  { text := none
    chunks := [⟨some ⟨some "https://www.youtube.com/watch?v=abc123", some "Video Tour"⟩⟩] }

/-- A model response citing a link whose URL scheme is "httpx": the WHATWG
URL constructor accepts it (non-special scheme with an authority), and it
starts with the string "http". -/
def respHttpx : ModelResponse :=
  { text := none
    chunks := [⟨some ⟨some "httpx://example.com/video-tour", some "T"⟩⟩] }

/-- A model response in which the same URL occurs as a grounding citation
(title "Listing") and again inside the free text. -/
def respDup : ModelResponse :=
  { text := some "See https://zillow.com/homedetails/abc today"
    chunks := [⟨some ⟨some "https://zillow.com/homedetails/abc", some "Listing"⟩⟩] }

/-- A model response whose free text is the empty string. -/
def respEmptyText : ModelResponse := { text := some "", chunks := [] }

/-- A model response with non-empty free text containing one video URL. -/
def respText : ModelResponse :=
  { text := some "Tour at https://youtube.com/watch?v=xyz", chunks := [] }

/- ## Structural lemmas about processLink and the extraction folds -/

theorem processLink_eq_or_append (acc : List VideoSearchResult)
    (uri title : String) :
    processLink acc uri title = acc ∨
    ∃ obj, parseURL (cleanUriOf uri) = some obj ∧
      startsWithStr (cleanUriOf uri) "http" = true ∧
      rejectLink (cleanUriOf uri) (toLowerStr obj.hostname) obj.pathname
        (toLowerStr title) = false ∧
      acc.any (fun l => l.uri = cleanUriOf uri) = false ∧
      processLink acc uri title =
        acc ++ [{ title := title, uri := cleanUriOf uri,
                  source := toLowerStr obj.hostname }] := by
  unfold processLink
  split
  · rename_i h1
    split
    · exact Or.inl rfl
    · rename_i obj hp
      split
      · exact Or.inl rfl
      · rename_i h2
        split
        · exact Or.inl rfl
        · rename_i h3
          exact Or.inr ⟨obj, hp, h1, by simpa using h2, by simpa using h3, rfl⟩
  · exact Or.inl rfl

/-- Every entry that `processLink` inserts has an http-prefixed cleaned URI
and is not a channel page. -/
theorem mem_processLink {v : VideoSearchResult} {acc : List VideoSearchResult}
    {uri title : String} (h : v ∈ processLink acc uri title) :
    v ∈ acc ∨
      (startsWithStr v.uri "http" = true ∧
       isChannelPage v.source v.uri = false) := by
  rcases processLink_eq_or_append acc uri title with heq | ⟨obj, _, h1, h2, _, heq⟩
  · rw [heq] at h
    exact Or.inl h
  · rw [heq] at h
    rcases List.mem_append.mp h with h' | h'
    · exact Or.inl h'
    · have hv : v = { title := title, uri := cleanUriOf uri,
                      source := toLowerStr obj.hostname } := by simpa using h'
      subst hv
      refine Or.inr ⟨h1, ?_⟩
      unfold rejectLink at h2
      simp only [Bool.or_eq_false_iff] at h2
      exact h2.1.1.1.1.1.1.1.1.1.1

theorem mem_processChunk {v : VideoSearchResult} {acc : List VideoSearchResult}
    {ch : GroundingChunk} (h : v ∈ processChunk acc ch) :
    v ∈ acc ∨
      (startsWithStr v.uri "http" = true ∧
       isChannelPage v.source v.uri = false) := by
  unfold processChunk at h
  split at h
  · exact Or.inl h
  · split at h
    · exact Or.inl h
    · split at h
      · exact Or.inl h
      · exact mem_processLink h

theorem mem_processChunks {v : VideoSearchResult} {chs : List GroundingChunk} :
    ∀ {acc : List VideoSearchResult}, v ∈ processChunks acc chs →
      v ∈ acc ∨
        (startsWithStr v.uri "http" = true ∧
         isChannelPage v.source v.uri = false) := by
  induction chs with
  | nil => intro acc h; exact Or.inl h
  | cons ch rest ih =>
    intro acc h
    rw [processChunks] at h
    rcases ih h with h' | hP
    · exact mem_processChunk h'
    · exact Or.inr hP

theorem mem_processTextMatches {v : VideoSearchResult} {ms : List String} :
    ∀ {acc : List VideoSearchResult}, v ∈ processTextMatches acc ms →
      v ∈ acc ∨
        (startsWithStr v.uri "http" = true ∧
         isChannelPage v.source v.uri = false) := by
  induction ms with
  | nil => intro acc h; exact Or.inl h
  | cons m rest ih =>
    intro acc h
    rw [processTextMatches] at h
    rcases ih h with h' | hP
    · exact mem_processLink h'
    · exact Or.inr hP

/-- Every deduplicated candidate has an http-prefixed URI and is not a
channel page. -/
theorem mem_allLinksOf {v : VideoSearchResult} {resp : ModelResponse}
    (h : v ∈ allLinksOf resp) :
    startsWithStr v.uri "http" = true ∧
      isChannelPage v.source v.uri = false := by
  unfold allLinksOf at h
  rcases mem_processTextMatches h with h' | hP
  · rcases mem_processChunks h' with h'' | hP
    · simp at h''
    · exact hP
  · exact hP

/- ## Structural lemmas about categorization -/

theorem categorize_cons (listing : Option VideoSearchResult)
    (vids : List VideoSearchResult) (link : VideoSearchResult)
    (rest : List VideoSearchResult) :
    categorize listing vids (link :: rest) =
      if isVideoPlatform link.source link.uri then
        categorize listing (vids ++ [link]) rest
      else
        match listing with
        | none =>
          categorize (some { link with title := "Official Listing Page" }) vids rest
        | some _ => categorize listing vids rest := rfl

theorem categorize_snd (listing : Option VideoSearchResult)
    (vids links : List VideoSearchResult) :
    (categorize listing vids links).2 =
      vids ++ links.filter (fun l => isVideoPlatform l.source l.uri) := by
  induction links generalizing listing vids with
  | nil => simp [categorize]
  | cons link rest ih =>
    by_cases hv : isVideoPlatform link.source link.uri
    · rw [categorize_cons, if_pos hv, ih, List.filter_cons, if_pos hv]
      simp
    · rw [categorize_cons, if_neg hv, List.filter_cons, if_neg hv]
      cases listing with
      | none => exact ih _ _
      | some l => exact ih _ _

theorem categorize_fst_some (l : VideoSearchResult)
    (vids links : List VideoSearchResult) :
    (categorize (some l) vids links).1 = some l := by
  induction links generalizing vids with
  | nil => rfl
  | cons link rest ih =>
    by_cases hv : isVideoPlatform link.source link.uri
    · rw [categorize_cons, if_pos hv]
      exact ih _
    · rw [categorize_cons, if_neg hv]
      exact ih _

theorem categorize_fst_none (vids links : List VideoSearchResult) :
    (categorize none vids links).1 = listingEntry links := by
  induction links generalizing vids with
  | nil => rfl
  | cons link rest ih =>
    by_cases hv : isVideoPlatform link.source link.uri
    · rw [categorize_cons, if_pos hv, ih, listingEntry, listingEntry,
        List.find?_cons]
      simp [hv]
    · rw [categorize_cons, if_neg hv, categorize_fst_some, listingEntry,
        List.find?_cons]
      simp [hv]

theorem finalLinksPre_eq (resp : ModelResponse) :
    finalLinksPre resp =
      (listingEntry (allLinksOf resp)).toList ++
        (allLinksOf resp).filter (fun l => isVideoPlatform l.source l.uri) := by
  show (match (categorize none [] (allLinksOf resp)).1 with
        | some l => [l]
        | none => []) ++ (categorize none [] (allLinksOf resp)).2 = _
  rw [categorize_snd, categorize_fst_none]
  cases listingEntry (allLinksOf resp) <;> simp

/-- Every pre-probe final link is a deduplicated candidate up to the listing
retitle. -/
theorem mem_finalLinksPre {v : VideoSearchResult} {resp : ModelResponse}
    (h : v ∈ finalLinksPre resp) :
    ∃ e ∈ allLinksOf resp, v.uri = e.uri ∧ v.source = e.source ∧
      (v.title = e.title ∨ v.title = "Official Listing Page") := by
  rw [finalLinksPre_eq] at h
  rcases List.mem_append.mp h with h' | h'
  · cases hle : listingEntry (allLinksOf resp) with
    | none => rw [hle] at h'; simp at h'
    | some l =>
      rw [hle] at h'
      simp at h'
      subst h'
      unfold listingEntry at hle
      obtain ⟨e, hfind, hret⟩ := Option.map_eq_some'.mp hle
      refine ⟨e, List.mem_of_find?_eq_some hfind, ?_, ?_, Or.inr ?_⟩ <;>
        rw [← hret]
  · have hm := List.mem_filter.mp h'
    exact ⟨v, hm.1, rfl, rfl, Or.inl rfl⟩

/- ## Deduplication lemmas -/

/-- Processing a URL whose cleaned form is already present is a no-op:
either some filter rejects it again, or the `uniqueLinks.has` guard fires. -/
theorem processLink_mem_noop {acc : List VideoSearchResult} {u : String}
    (t : String) (h : ∃ e ∈ acc, e.uri = cleanUriOf u) :
    processLink acc u t = acc := by
  unfold processLink
  split
  · split
    · rfl
    · split
      · rfl
      · split
        · rfl
        · rename_i hany
          exact absurd (List.any_eq_true.mpr
            (by obtain ⟨e, he, hu⟩ := h; exact ⟨e, he, by simp [hu]⟩)) hany
  · rfl

theorem pairwise_processLink {acc : List VideoSearchResult} {u t : String}
    (h : acc.Pairwise (fun a b => a.uri ≠ b.uri)) :
    (processLink acc u t).Pairwise (fun a b => a.uri ≠ b.uri) := by
  rcases processLink_eq_or_append acc u t with heq | ⟨obj, _, _, _, h3, heq⟩
  · rwa [heq]
  · rw [heq, List.pairwise_append]
    refine ⟨h, List.pairwise_singleton _ _, ?_⟩
    intro a ha b hb
    have hb' : b = { title := t, uri := cleanUriOf u,
                     source := toLowerStr obj.hostname } := by simpa using hb
    subst hb'
    have := List.any_eq_false.mp h3 a ha
    simpa using this

theorem pairwise_processChunk {acc : List VideoSearchResult}
    {ch : GroundingChunk} (h : acc.Pairwise (fun a b => a.uri ≠ b.uri)) :
    (processChunk acc ch).Pairwise (fun a b => a.uri ≠ b.uri) := by
  unfold processChunk
  split
  · exact h
  · split
    · exact h
    · split
      · exact h
      · exact pairwise_processLink h

theorem pairwise_processChunks {chs : List GroundingChunk} :
    ∀ {acc : List VideoSearchResult},
      acc.Pairwise (fun a b => a.uri ≠ b.uri) →
      (processChunks acc chs).Pairwise (fun a b => a.uri ≠ b.uri) := by
  induction chs with
  | nil => intro acc h; exact h
  | cons ch rest ih =>
    intro acc h
    rw [processChunks]
    exact ih (pairwise_processChunk h)

theorem pairwise_processTextMatches {ms : List String} :
    ∀ {acc : List VideoSearchResult},
      acc.Pairwise (fun a b => a.uri ≠ b.uri) →
      (processTextMatches acc ms).Pairwise (fun a b => a.uri ≠ b.uri) := by
  induction ms with
  | nil => intro acc h; exact h
  | cons m rest ih =>
    intro acc h
    rw [processTextMatches]
    exact ih (pairwise_processLink h)

/-- The deduplicated candidate list has pairwise-distinct URIs. -/
theorem pairwise_allLinksOf (resp : ModelResponse) :
    (allLinksOf resp).Pairwise (fun a b => a.uri ≠ b.uri) := by
  unfold allLinksOf
  exact pairwise_processTextMatches (pairwise_processChunks List.Pairwise.nil)

/-- The pre-probe final list still has pairwise-distinct URIs: the retitled
listing entry keeps its URI, and the video links are a sublist of the
deduplicated candidates. -/
theorem pairwise_finalLinksPre (resp : ModelResponse) :
    (finalLinksPre resp).Pairwise (fun a b => a.uri ≠ b.uri) := by
  rw [finalLinksPre_eq, List.pairwise_append]
  refine ⟨?_, (pairwise_allLinksOf resp).filter _, ?_⟩
  · cases listingEntry (allLinksOf resp) <;> simp
  · intro a ha b hb
    cases hle : listingEntry (allLinksOf resp) with
    | none => rw [hle] at ha; simp at ha
    | some l =>
      rw [hle] at ha
      have ha' : a = l := by simpa using ha
      subst ha'
      obtain ⟨e, hfind, hret⟩ := Option.map_eq_some'.mp hle
      have hePred := List.find?_some hfind
      have heMem := List.mem_of_find?_eq_some hfind
      have hbMem := List.mem_filter.mp hb
      have hbVid : isVideoPlatform b.source b.uri = true := by
        simpa using hbMem.2
      have hne : e ≠ b := by
        intro hEq
        rw [hEq] at hePred
        simp [hbVid] at hePred
      have hdist := (pairwise_allLinksOf resp).forall
        (fun x y hxy => hxy.symm) heMem hbMem.1 hne
      rw [← hret]
      exact hdist

/- ## Bridges between the pipeline stages and the wrapper -/

theorem searchPipeline_videos (resp : ModelResponse)
    (probe : String → ProbeResult) :
    (searchPipeline resp probe).videos =
      (finalLinksPre resp).filter (checkAvailability probe) := rfl

theorem searchPipeline_summary (resp : ModelResponse)
    (probe : String → ProbeResult) :
    (searchPipeline resp probe).summary = summaryOf resp := rfl

theorem searchPipeline_found (resp : ModelResponse)
    (probe : String → ProbeResult) :
    (searchPipeline resp probe).found = true ↔
      (searchPipeline resp probe).videos ≠ [] := by
  show decide (((finalLinksPre resp).filter (checkAvailability probe)).length > 0) = true ↔ _
  rw [searchPipeline_videos]
  simp [List.length_pos]

/-- A successful `searchPropertyVideos` run is exactly a pipeline run on the
model response of a successful external call, under a configured key. -/
theorem searchPropertyVideos_ok {key : Option String}
    {c : Except Unit ModelResponse} {probe : String → ProbeResult}
    {r : SearchResponse} (h : searchPropertyVideos key c probe = .ok r) :
    ∃ k resp, key = some k ∧ c = .ok resp ∧ r = searchPipeline resp probe := by
  cases key with
  | none => simp [searchPropertyVideos] at h
  | some k =>
    cases c with
    | error e => simp [searchPropertyVideos] at h
    | ok resp =>
      refine ⟨k, resp, rfl, rfl, ?_⟩
      have : Except.ok (ε := SearchFailure) (searchPipeline resp probe) = .ok r := h
      simpa using this.symm

/- ## Claim C1 -/

/-- Claim C1 (amended): every entry in the videos list of a successful
`searchPropertyVideos` result has a URI starting with the string "http" (the
code's actual guard); the claim's stronger "http or https scheme" version is
refuted by `claim_C1_counterexample`. -/
theorem claim_C1 {key : Option String} {c : Except Unit ModelResponse}
    {probe : String → ProbeResult} {r : SearchResponse}
    (h : searchPropertyVideos key c probe = .ok r) :
    ∀ v ∈ r.videos, startsWithStr v.uri "http" = true := by
  obtain ⟨k, resp, _, _, hr⟩ := searchPropertyVideos_ok h
  subst hr
  intro v hv
  rw [searchPipeline_videos] at hv
  obtain ⟨e, he, huri, _, _⟩ := mem_finalLinksPre (List.mem_filter.mp hv).1
  rw [huri]
  exact (mem_allLinksOf he).1

/-- Claim C1 witness: applying `claim_C1` to a concrete successful run. -/
theorem claim_C1_witness :
    startsWithStr "https://www.youtube.com/watch?v=abc123" "http" = true :=
  @claim_C1 (some "k") (.ok respWatch) probeOk (searchPipeline respWatch probeOk)
    rfl { title := "Video Tour", uri := "https://www.youtube.com/watch?v=abc123",
          source := "www.youtube.com" } (by decide)

/-- Claim C1 counterexample: a candidate link with URL scheme "httpx" — not
http or https — is present in the returned videos list, because the code only
checks the prefix "http". -/
theorem claim_C1_counterexample :
    searchPropertyVideos (some "k") (.ok respHttpx) probeOk =
      .ok { summary := "No summary provided."
            videos := [{ title := "T", uri := "httpx://example.com/video-tour",
                         source := "example.com" }]
            found := true } ∧
    parseURL "httpx://example.com/video-tour" =
      some { scheme := "httpx", hostname := "example.com",
             pathname := "/video-tour" } ∧
    "httpx" ≠ "http" ∧ "httpx" ≠ "https" :=
  ⟨by decide, by decide, by decide, by decide⟩

/- ## Claim C5 -/

/-- Claim C5: a URL recognized as a channel-root or user-listing page on
YouTube (hostname containing youtube.com or youtu.be and URL containing
/channel/, /user/ or /c/) never appears in the videos list of a successful
result, for any probe. -/
theorem claim_C5 {key : Option String} {c : Except Unit ModelResponse}
    {probe : String → ProbeResult} {r : SearchResponse}
    (h : searchPropertyVideos key c probe = .ok r) :
    ∀ v ∈ r.videos, isChannelPage v.source v.uri = false := by
  obtain ⟨k, resp, _, _, hr⟩ := searchPropertyVideos_ok h
  subst hr
  intro v hv
  rw [searchPipeline_videos] at hv
  obtain ⟨e, he, huri, hsource, _⟩ := mem_finalLinksPre (List.mem_filter.mp hv).1
  rw [huri, hsource]
  exact (mem_allLinksOf he).2

/-- Claim C5 witness: applying `claim_C5` to a concrete successful run. -/
theorem claim_C5_witness :
    isChannelPage "www.youtube.com" "https://www.youtube.com/watch?v=abc123" = false :=
  @claim_C5 (some "k") (.ok respWatch) probeOk (searchPipeline respWatch probeOk)
    rfl { title := "Video Tour", uri := "https://www.youtube.com/watch?v=abc123",
          source := "www.youtube.com" } (by decide)

/- ## Claim C3 -/

/-- Elements of the video-link part of the final list are video-platform
links, before and after availability filtering. -/
theorem mem_filter_filter_vid {resp : ModelResponse} {p : VideoSearchResult → Bool}
    {v : VideoSearchResult}
    (h : v ∈ ((allLinksOf resp).filter
        (fun l => isVideoPlatform l.source l.uri)).filter p) :
    isVideoPlatform v.source v.uri = true :=
  (List.mem_filter.mp (List.mem_filter.mp h).1).2

/-- Claim C3: the videos list of a successful result contains at most one
entry not recognized as a video link; such an entry bears the title
"Official Listing Page" and is the head of the list; every entry after the
head is a video link.  This holds after availability filtering. -/
theorem claim_C3 {key : Option String} {c : Except Unit ModelResponse}
    {probe : String → ProbeResult} {r : SearchResponse}
    (h : searchPropertyVideos key c probe = .ok r) :
    (∀ v ∈ r.videos.drop 1, isVideoPlatform v.source v.uri = true) ∧
    (∀ v ∈ r.videos, isVideoPlatform v.source v.uri = false →
      r.videos.head? = some v ∧ v.title = "Official Listing Page") := by
  obtain ⟨k, resp, _, _, hr⟩ := searchPropertyVideos_ok h
  subst hr
  have hv_eq : (searchPipeline resp probe).videos =
      ((listingEntry (allLinksOf resp)).toList ++
        (allLinksOf resp).filter (fun l => isVideoPlatform l.source l.uri)).filter
        (checkAvailability probe) := by
    rw [searchPipeline_videos, finalLinksPre_eq]
  cases hle : listingEntry (allLinksOf resp) with
  | none =>
    rw [hle] at hv_eq
    simp only [Option.toList_none, List.nil_append] at hv_eq
    constructor
    · intro v hv
      exact mem_filter_filter_vid (hv_eq ▸ List.mem_of_mem_drop hv)
    · intro v hv hnv
      rw [hv_eq] at hv
      rw [mem_filter_filter_vid hv] at hnv
      exact absurd hnv (by simp)
  | some l =>
    obtain ⟨e, hfind, hret⟩ := Option.map_eq_some'.mp hle
    rw [hle] at hv_eq
    simp only [Option.toList_some, List.singleton_append] at hv_eq
    rw [List.filter_cons] at hv_eq
    by_cases hpl : checkAvailability probe l
    · rw [if_pos hpl] at hv_eq
      constructor
      · intro v hv
        rw [hv_eq] at hv
        simp only [List.drop_succ_cons, List.drop_zero] at hv
        exact mem_filter_filter_vid hv
      · intro v hv hnv
        rw [hv_eq] at hv
        rcases List.mem_cons.mp hv with hvl | hv'
        · subst hvl
          exact ⟨by rw [hv_eq]; rfl, by rw [← hret]⟩
        · rw [mem_filter_filter_vid hv'] at hnv
          exact absurd hnv (by simp)
    · rw [if_neg hpl] at hv_eq
      constructor
      · intro v hv
        exact mem_filter_filter_vid (hv_eq ▸ List.mem_of_mem_drop hv)
      · intro v hv hnv
        rw [hv_eq] at hv
        rw [mem_filter_filter_vid hv] at hnv
        exact absurd hnv (by simp)

/-- Claim C3 witness: on a concrete run the non-video Zillow entry is the
head and is retitled. -/
theorem claim_C3_witness :
    (searchPipeline respDup probeOk).videos.head? =
      some { title := "Official Listing Page",
             uri := "https://zillow.com/homedetails/abc", source := "zillow.com" } ∧
    VideoSearchResult.title
      { title := "Official Listing Page",
        uri := "https://zillow.com/homedetails/abc", source := "zillow.com" } =
      "Official Listing Page" :=
  (@claim_C3 (some "k") (.ok respDup) probeOk (searchPipeline respDup probeOk)
    rfl).2 _ (by decide) (by decide)

/- ## Claim C7 -/

/-- Claim C7 (amended): on a successful run, the summary equals the model's
free text whenever that text is present and non-empty (otherwise the fallback
string "No summary provided." is used — see `claim_C7_counterexample`); the
videos list is the listing entry (if any) first, followed by the video links
in first-seen order, each filtered by the availability check; and `found`
holds exactly when the videos list is non-empty. -/
theorem claim_C7 {key : Option String} {resp : ModelResponse}
    {probe : String → ProbeResult} {r : SearchResponse}
    (h : searchPropertyVideos key (.ok resp) probe = .ok r) :
    (∀ s, resp.text = some s → s ≠ "" → r.summary = s) ∧
    r.videos =
      ((listingEntry (allLinksOf resp)).toList ++
        (allLinksOf resp).filter (fun l => isVideoPlatform l.source l.uri)).filter
        (checkAvailability probe) ∧
    (r.found = true ↔ r.videos ≠ []) := by
  obtain ⟨k, resp', _, hc, hr⟩ := searchPropertyVideos_ok h
  have hresp : resp = resp' := Except.ok.inj hc
  subst hresp
  subst hr
  refine ⟨?_, ?_, ?_⟩
  · intro s hs hne
    rw [searchPipeline_summary]
    unfold summaryOf
    rw [hs]
    simp [hne]
  · rw [searchPipeline_videos, finalLinksPre_eq]
  · exact searchPipeline_found resp probe

/-- Claim C7 witness: on a concrete run with non-empty model text the summary
is that text. -/
theorem claim_C7_witness :
    (searchPipeline respText probeOk).summary =
      "Tour at https://youtube.com/watch?v=xyz" :=
  (@claim_C7 (some "k") respText probeOk (searchPipeline respText probeOk)
    rfl).1 _ rfl (by decide)

/-- Claim C7 counterexample: when the model's free text is the empty string,
the summary is the fallback string, not the model's free text. -/
theorem claim_C7_counterexample :
    searchPropertyVideos (some "k") (.ok respEmptyText) probeOk =
      .ok { summary := "No summary provided.", videos := [], found := false } ∧
    respEmptyText.text = some "" ∧
    "No summary provided." ≠ "" :=
  ⟨by decide, rfl, by decide⟩

/- ## Claim C2 -/

/-- Claim C2 (amended): for every surviving pre-probe candidate of a
successful run: a YouTube-hosted link is dropped when its probe throws or
returns 404, and kept when the probe returns a success status whose body is
not a JSON object with title "video unavailable" (the unamended
"any success status keeps the link" is refuted by
`claim_C2_counterexample`); links not hosted on YouTube are kept with no
probe consulted. -/
theorem claim_C2 {key : Option String} {resp : ModelResponse}
    {probe : String → ProbeResult} {r : SearchResponse}
    (h : searchPropertyVideos key (.ok resp) probe = .ok r) :
    ∀ v ∈ finalLinksPre resp,
      (isYouTubeSource v.source = true → probe v.uri = .throws →
        v ∉ r.videos) ∧
      (∀ body, isYouTubeSource v.source = true →
        probe v.uri = .response 404 body → v ∉ r.videos) ∧
      (∀ status body, isYouTubeSource v.source = true →
        probe v.uri = .response status body → statusOk status = true →
        body ≠ .parsed (some "video unavailable") → v ∈ r.videos) ∧
      (isYouTubeSource v.source = false → v ∈ r.videos) := by
  obtain ⟨k, resp', _, hc, hr⟩ := searchPropertyVideos_ok h
  have hresp : resp = resp' := Except.ok.inj hc
  subst hresp
  subst hr
  intro v hv
  rw [searchPipeline_videos]
  refine ⟨?_, ?_, ?_, ?_⟩
  · intro hyt hp hmem
    have hchk := (List.mem_filter.mp hmem).2
    rw [checkAvailability, if_pos hyt, hp] at hchk
    simp [probeOutcomeOk] at hchk
  · intro body hyt hp hmem
    have hchk := (List.mem_filter.mp hmem).2
    rw [checkAvailability, if_pos hyt, hp] at hchk
    simp [probeOutcomeOk] at hchk
  · intro status body hyt hp hok hbody
    refine List.mem_filter.mpr ⟨hv, ?_⟩
    rw [checkAvailability, if_pos hyt, hp]
    have hrange : 200 ≤ status ∧ status ≤ 299 := by
      rw [statusOk] at hok
      simpa using hok
    have h404 : status ≠ 404 := by omega
    have h401 : status ≠ 401 := by omega
    have h403 : status ≠ 403 := by omega
    cases body with
    | malformed => simp [probeOutcomeOk, h404, h401, h403, hok]
    | parsed title =>
      have hti : title ≠ some "video unavailable" :=
        fun hEq => hbody (by rw [hEq])
      simp [probeOutcomeOk, h404, h401, h403, hok, hti]
  · intro hyt
    refine List.mem_filter.mpr ⟨hv, ?_⟩
    rw [checkAvailability, if_neg (by simp [hyt])]

/-- Claim C2 witness: a concrete YouTube link whose probe succeeds with a
normal body is present in the final list. -/
theorem claim_C2_witness :
    ({ title := "Video Tour", uri := "https://www.youtube.com/watch?v=abc123",
       source := "www.youtube.com" } : VideoSearchResult) ∈
      (searchPipeline respWatch probeOk).videos := by
  have h := @claim_C2 (some "k") respWatch probeOk
    (searchPipeline respWatch probeOk) rfl
    { title := "Video Tour", uri := "https://www.youtube.com/watch?v=abc123",
      source := "www.youtube.com" } (by decide)
  exact h.2.2.1 200 (.parsed (some "A tour")) (by decide) rfl (by decide)
    (by decide)

/-- Claim C2 counterexample: the probe answers HTTP 200 (a success status)
with body title "video unavailable", and the surviving YouTube candidate is
nevertheless dropped — refuting "if the probe returns a success status the
link is present". -/
theorem claim_C2_counterexample :
    ({ title := "Video Tour", uri := "https://www.youtube.com/watch?v=abc123",
       source := "www.youtube.com" } : VideoSearchResult) ∈
      finalLinksPre respWatch ∧
    isYouTubeSource "www.youtube.com" = true ∧
    probeUnavailable "https://www.youtube.com/watch?v=abc123" =
      .response 200 (.parsed (some "video unavailable")) ∧
    statusOk 200 = true ∧
    searchPropertyVideos (some "k") (.ok respWatch) probeUnavailable =
      .ok { summary := "No summary provided.", videos := [], found := false } :=
  ⟨by decide, by decide, rfl, by decide, by decide⟩

/- ## Claim C4 -/

/-- Claim C4 (amended): in a successful run, the videos list has pairwise
distinct URIs (so a URL fed twice — from a citation and from the free text —
yields at most one entry); processing a URL whose cleaned form is already in
the deduplicated set is a no-op (so the first occurrence and its title win);
and every final entry keeps the title of its deduplicated first occurrence
except the listing entry, which is retitled "Official Listing Page" (the
unamended claim that the first-seen title is always kept is refuted by
`claim_C4_counterexample`). -/
theorem claim_C4 {key : Option String} {resp : ModelResponse}
    {probe : String → ProbeResult} {r : SearchResponse}
    (h : searchPropertyVideos key (.ok resp) probe = .ok r) :
    r.videos.Pairwise (fun a b => a.uri ≠ b.uri) ∧
    (∀ acc u t, (∃ e ∈ acc, e.uri = cleanUriOf u) → processLink acc u t = acc) ∧
    (∀ v ∈ r.videos, ∃ e ∈ allLinksOf resp, v.uri = e.uri ∧
      v.source = e.source ∧
      (v.title = e.title ∨ v.title = "Official Listing Page")) := by
  obtain ⟨k, resp', _, hc, hr⟩ := searchPropertyVideos_ok h
  have hresp : resp = resp' := Except.ok.inj hc
  subst hresp
  subst hr
  refine ⟨?_, ?_, ?_⟩
  · rw [searchPipeline_videos]
    exact (pairwise_finalLinksPre resp).filter _
  · intro acc u t hmem
    exact processLink_mem_noop t hmem
  · intro v hv
    rw [searchPipeline_videos] at hv
    exact mem_finalLinksPre (List.mem_filter.mp hv).1

/-- Claim C4 witness: re-processing an already-present URL with a different
title leaves the deduplicated set unchanged. -/
theorem claim_C4_witness :
    processLink
      [{ title := "Listing", uri := "https://zillow.com/homedetails/abc",
         source := "zillow.com" }]
      "https://zillow.com/homedetails/abc" "Mentioned Link" =
      [{ title := "Listing", uri := "https://zillow.com/homedetails/abc",
         source := "zillow.com" }] :=
  (@claim_C4 (some "k") respDup probeOk (searchPipeline respDup probeOk)
    rfl).2.1 _ _ _
    ⟨{ title := "Listing", uri := "https://zillow.com/homedetails/abc",
       source := "zillow.com" }, by decide, by decide⟩

/-- Claim C4 counterexample: the same URL arrives once as a grounding
citation titled "Listing" and once in the free text; the result has exactly
one entry for it, but its title is "Official Listing Page", not the title of
the first occurrence processed. -/
theorem claim_C4_counterexample :
    extractUrls (summaryOf respDup) = ["https://zillow.com/homedetails/abc"] ∧
    allLinksOf respDup =
      [{ title := "Listing", uri := "https://zillow.com/homedetails/abc",
         source := "zillow.com" }] ∧
    searchPropertyVideos (some "k") (.ok respDup) probeOk =
      .ok { summary := "See https://zillow.com/homedetails/abc today"
            videos := [{ title := "Official Listing Page",
                         uri := "https://zillow.com/homedetails/abc",
                         source := "zillow.com" }]
            found := true } ∧
    "Official Listing Page" ≠ "Listing" :=
  ⟨by decide, by decide, by decide, by decide⟩

/- ## Claim C6 -/

/-- Membership in a conditionally-included singleton block. -/
theorem mem_ite_list {x : String} {c : Prop} [Decidable c] {l : List String} :
    (x ∈ if c then l else []) ↔ (c ∧ x ∈ l) := by
  split
  · rename_i hc
    simp [hc]
  · rename_i hc
    simp [hc]

/-- Claim C6: if any of the five required fields is empty after trimming,
`handleSearch` rejects (does not invoke the search) with a message listing
exactly the names of the missing fields, in the order the code checks them. -/
theorem claim_C6 (address : AddressForm) (mlsNumber : String)
    (h : jsTrim address.street = "" ∨ jsTrim address.city = "" ∨
         jsTrim address.state = "" ∨ jsTrim address.zip = "" ∨
         jsTrim mlsNumber = "") :
    handleSearch address mlsNumber =
      .rejected ("Please fill in the following required field(s): " ++
        joinWith ", " (missingFieldsOf address mlsNumber)) ∧
    ("Street Address" ∈ missingFieldsOf address mlsNumber ↔
      jsTrim address.street = "") ∧
    ("City" ∈ missingFieldsOf address mlsNumber ↔ jsTrim address.city = "") ∧
    ("State" ∈ missingFieldsOf address mlsNumber ↔ jsTrim address.state = "") ∧
    ("Zip Code" ∈ missingFieldsOf address mlsNumber ↔
      jsTrim address.zip = "") ∧
    ("MLS Number" ∈ missingFieldsOf address mlsNumber ↔
      jsTrim mlsNumber = "") := by
  have hlen : (missingFieldsOf address mlsNumber).length > 0 := by
    unfold missingFieldsOf
    rcases h with h | h | h | h | h <;>
      simp [h, List.length_append]
  refine ⟨?_, ?_, ?_, ?_, ?_, ?_⟩
  · unfold handleSearch
    rw [if_pos hlen]
  all_goals
    unfold missingFieldsOf
    simp only [List.mem_append, mem_ite_list, List.mem_singleton]
    simp

/-- Claim C6 witness: a concrete form with an empty street field is rejected
with exactly that field name in the message. -/
theorem claim_C6_witness :
    handleSearch { street := "", city := "Beverly Hills", state := "CA",
                   zip := "90210" } "MLS123" =
      .rejected "Please fill in the following required field(s): Street Address" := by
  have h := claim_C6 { street := "", city := "Beverly Hills", state := "CA",
                       zip := "90210" } "MLS123" (Or.inl (by decide))
  have h1 := h.1
  simpa using h1

/- ## Claim C8 -/

/-- Claim C8: `searchPropertyVideos` fails exactly when no credential is
configured (in which case the error is the missing-key message, independent
of the external call's outcome, modelling failure before any network
activity) or when the single external call fails (surfaced as the one
generic retry-suggesting message; the model takes the outcome of exactly one
call, so no internal retry exists). -/
theorem claim_C8 (key : Option String) (c : Except Unit ModelResponse)
    (probe : String → ProbeResult) :
    ((∃ e, searchPropertyVideos key c probe = .error e) ↔
      (key = none ∨ ∃ u, c = .error u)) ∧
    (key = none →
      searchPropertyVideos key c probe =
        .error (.missingKey "API Key not found. Please ensure API_KEY (or VITE_API_KEY) is set in your Render.com Environment Variables.")) ∧
    (∀ k u, key = some k → c = .error u →
      searchPropertyVideos key c probe =
        .error (.searchFailed "Failed to search for videos. Please check your API Key and try again.")) := by
  refine ⟨⟨?_, ?_⟩, ?_, ?_⟩
  · rintro ⟨e, he⟩
    cases key with
    | none => exact Or.inl rfl
    | some k =>
      cases c with
      | error u => exact Or.inr ⟨u, rfl⟩
      | ok resp => simp [searchPropertyVideos] at he
  · rintro (hk | ⟨u, hu⟩)
    · subst hk
      exact ⟨_, rfl⟩
    · subst hu
      cases key with
      | none => exact ⟨_, rfl⟩
      | some k => exact ⟨_, rfl⟩
  · intro hk
    subst hk
    rfl
  · intro k u hk hu
    subst hk
    subst hu
    rfl

/-- Claim C8 witness: with no key configured the failure is the missing-key
error, whatever the call outcome. -/
theorem claim_C8_witness :
    searchPropertyVideos none (.ok respWatch) probeOk =
      .error (.missingKey "API Key not found. Please ensure API_KEY (or VITE_API_KEY) is set in your Render.com Environment Variables.") :=
  (claim_C8 none (.ok respWatch) probeOk).2.1 rfl

/- ## Claim C9 -/

/-- Claim C9: `generatePromotionalVideo` fails when no credential is
available and when the operation completes without a result URI; otherwise
it returns the video location with the key appended as a query parameter. -/
theorem claim_C9 (key : Option String) (op : Except Unit (Option String)) :
    (key = none →
      generatePromotionalVideo key op = .error "API Key not found") ∧
    (op = .ok none →
      ∃ msg, generatePromotionalVideo key op = .error msg) ∧
    (∀ k uri, key = some k → op = .ok (some uri) →
      generatePromotionalVideo key op = .ok (uri ++ "&key=" ++ k)) := by
  refine ⟨?_, ?_, ?_⟩
  · intro hk
    subst hk
    rfl
  · intro hop
    subst hop
    cases key with
    | none => exact ⟨_, rfl⟩
    | some k => exact ⟨_, rfl⟩
  · intro k uri hk hop
    subst hk
    subst hop
    rfl

/-- Claim C9 witness: a successful generation returns the URI with the key
appended. -/
theorem claim_C9_witness :
    generatePromotionalVideo (some "KEY")
        (.ok (some "https://video.example/file?alt=media")) =
      .ok ("https://video.example/file?alt=media" ++ "&key=" ++ "KEY") :=
  (claim_C9 (some "KEY") (.ok (some "https://video.example/file?alt=media"))).2.2
    "KEY" "https://video.example/file?alt=media" rfl rfl

/- ## Claim C10 -/

/-- Claim C10: deleting index `i` from a displayed result removes exactly
that entry, shifts the later entries down by one, and leaves `summary` and
`found` unchanged — so deleting the only video leaves `found` as it was
while `videos` becomes empty. -/
theorem claim_C10 (r : SearchResponse) (i : Nat) (h : i < r.videos.length) :
    ∃ r', handleDeleteVideo (some r) i = some r' ∧
      r'.summary = r.summary ∧
      r'.found = r.found ∧
      r'.videos.length + 1 = r.videos.length ∧
      (∀ j, j < i → r'.videos[j]? = r.videos[j]?) ∧
      (∀ j, i ≤ j → r'.videos[j]? = r.videos[j + 1]?) ∧
      (r.videos.length = 1 → r'.videos = []) := by
  refine ⟨{ r with videos := spliceRemoveAt r.videos i }, rfl, rfl, rfl,
    ?_, ?_, ?_, ?_⟩
  · show (spliceRemoveAt r.videos i).length + 1 = r.videos.length
    rw [spliceRemoveAt, List.length_append, List.length_take, List.length_drop]
    omega
  · intro j hj
    show (r.videos.take i ++ r.videos.drop (i + 1))[j]? = r.videos[j]?
    rw [List.getElem?_append_left (by rw [List.length_take]; omega),
      List.getElem?_take_of_lt hj]
  · intro j hj
    show (r.videos.take i ++ r.videos.drop (i + 1))[j]? = r.videos[j + 1]?
    have hlen : (r.videos.take i).length = i := by
      rw [List.length_take]
      omega
    rw [List.getElem?_append_right (by omega : (r.videos.take i).length ≤ j),
      List.getElem?_drop, hlen]
    have harith : i + 1 + (j - i) = j + 1 := by omega
    rw [harith]
  · intro h1
    show spliceRemoveAt r.videos i = []
    have hlen0 : (spliceRemoveAt r.videos i).length = 0 := by
      rw [spliceRemoveAt, List.length_append, List.length_take,
        List.length_drop]
      omega
    exact List.length_eq_zero.mp hlen0

/-- Claim C10 witness: deleting the only video of a found result keeps
`found = true` with an empty list. -/
theorem claim_C10_witness :
    handleDeleteVideo
        (some { summary := "s",
                videos := [{ title := "A", uri := "ua", source := "sa" }],
                found := true }) 0 =
      some { summary := "s", videos := [], found := true } := by
  obtain ⟨r', hdel, hsum, hfound, _, _, _, hlast⟩ :=
    claim_C10 { summary := "s",
                videos := [{ title := "A", uri := "ua", source := "sa" }],
                found := true } 0 (by decide)
  have hv : r'.videos = [] := hlast (by decide)
  cases r' with
  | mk s v f =>
    simp only at hsum hfound hv
    subst hsum
    subst hfound
    subst hv
    exact hdel
